import Mathlib

/-!
# Verification development for two fragments of the detector-simulation framework

* `SimG4Core/Application/interface/SteppingAction.h`: the `TrackStatus`
  enumeration and the two inline predicates `isInsideDeadRegion` and
  `isOutOfTimeWindow`.
* `Geometry/CaloTopology/test/FastTimeTopologyTester.cc`: the sampling loop
  `FastTimeTopologyTester::doTest`.

Definitions come first, theorems afterwards.
-/

namespace SteppingAction

/-! ## `SteppingAction.h`: data model -/

/-- Enumeration `TrackStatus` (SteppingAction.h, lines 20-30), the enumerators in
declaration order. -/
inductive TrackStatus where
  | sAlive
  | sKilledByProcess
  | sDeadRegion
  | sOutOfTime
  | sLowEnergy
  | sLowEnergyInVacuum
  | sEnergyDepNaN
  | sVeryForward
  | sNumberOfSteps
  deriving DecidableEq

/-- Integer code written next to each enumerator in the declaration. -/
def TrackStatus.code : TrackStatus → Nat
  | .sAlive => 0
  | .sKilledByProcess => 1
  | .sDeadRegion => 2
  | .sOutOfTime => 3
  | .sLowEnergy => 4
  | .sLowEnergyInVacuum => 5
  | .sEnergyDepNaN => 6
  | .sVeryForward => 7
  | .sNumberOfSteps => 8

/-- Enumerators of `TrackStatus` listed in the order of the declaration. -/
def TrackStatus.declared : List TrackStatus :=
  [.sAlive, .sKilledByProcess, .sDeadRegion, .sOutOfTime, .sLowEnergy,
   .sLowEnergyInVacuum, .sEnergyDepNaN, .sVeryForward, .sNumberOfSteps]

instance : Fintype TrackStatus where
  elems := ⟨Multiset.ofList TrackStatus.declared, by decide⟩
  complete := by intro s; cases s <;> decide

/-- Value of a `const G4Region*`: the address held by the pointer.  Two pointers
are equal exactly when the addresses are (pointer identity). -/
abbrev G4RegionPtr := Nat

/-- Data members of `SteppingAction` read by the two inline predicates
(SteppingAction.h, lines 55-74).  The type `τ` stands for `double`; the code
uses nothing of it but the comparison `>`.  The counters are `unsigned int`;
they are only read and compared, so no arithmetic on them can wrap. -/
structure Members (τ : Type) where
  maxTrackTime : τ
  numberTimes : Nat
  ndeadRegions : Nat
  maxTrackTimes : List τ
  maxTimeRegions : List G4RegionPtr
  deadRegions : List G4RegionPtr

/-! ## `SteppingAction.h`: the inline predicates -/

/-- Range-for loop of `isInsideDeadRegion` (lines 81-86) over the entries that
are still to be visited; the value is `res` when the loop is left. -/
def deadRegionLoop (reg : G4RegionPtr) : List G4RegionPtr → Bool
  | [] => false
  | region :: rest => if reg = region then true else deadRegionLoop reg rest

/-- Member function `SteppingAction::isInsideDeadRegion` (lines 79-88). -/
def isInsideDeadRegion {τ : Type} (sa : Members τ) (reg : G4RegionPtr) : Bool :=
  deadRegionLoop reg sa.deadRegions

/-- Counted loop of `isOutOfTimeWindow` (lines 92-97), started at index `i` with
`remaining = numberTimes - i` iterations left.  The value is `tofM` when the
loop is left; `none` records a read past the end of one of the two vectors
(`operator[]` is unchecked, the read is undefined behaviour). -/
def timeWindowLoop {τ : Type} (sa : Members τ) (reg : G4RegionPtr) : Nat → Nat → Option τ
  | 0, _ => some sa.maxTrackTime
  | remaining + 1, i =>
    match sa.maxTimeRegions[i]? with
    | none => none
    | some region =>
      if reg = region then sa.maxTrackTimes[i]?
      else timeWindowLoop sa reg remaining (i + 1)

/-- Member function `SteppingAction::isOutOfTimeWindow` (lines 90-99): the limit
`tofM` found by the loop, then the strict comparison `time > tofM`. -/
def isOutOfTimeWindow {τ : Type} [LT τ] [DecidableRel (fun (a b : τ) => a < b)]
    (sa : Members τ) (reg : G4RegionPtr) (time : τ) : Option Bool :=
  (timeWindowLoop sa reg sa.numberTimes 0).map (fun tofM => decide (tofM < time))

/-- Reading of `isOutOfTimeWindow` that follows the words of the specification:
the first entry of the whole sequence `maxTimeRegions` equal to `reg` selects the
limit, and the global limit applies when there is none. -/
def isOutOfTimeWindowSpec {τ : Type} [LT τ] [DecidableRel (fun (a b : τ) => a < b)]
    (sa : Members τ) (reg : G4RegionPtr) (time : τ) : Option Bool :=
  match sa.maxTimeRegions.indexOf? reg with
  | some i => (sa.maxTrackTimes[i]?).map (fun lim => decide (lim < time))
  | none => some (decide (sa.maxTrackTime < time))

/-- Table with one override entry that `numberTimes = 0` leaves unused. -/
def unusedOverride : Members Int :=
  { maxTrackTime := 10, numberTimes := 0, ndeadRegions := 0,
    maxTrackTimes := [5], maxTimeRegions := [1], deadRegions := [] }

/-- Aligned table with two override entries, the first region listed twice. -/
def alignedTable : Members Int :=
  { maxTrackTime := 10, numberTimes := 3, ndeadRegions := 2,
    maxTrackTimes := [5, 20, 7], maxTimeRegions := [4, 9, 4], deadRegions := [3, 8] }

/-- Table whose counter `numberTimes = 1` covers only the first of two entries. -/
def shortCount : Members Int :=
  { maxTrackTime := 10, numberTimes := 1, ndeadRegions := 0,
    maxTrackTimes := [5, 20], maxTimeRegions := [4, 9], deadRegions := [] }

/-- Table whose counter `numberTimes = 2` exceeds the single entry of the vectors. -/
def overCount : Members Int :=
  { maxTrackTime := 10, numberTimes := 2, ndeadRegions := 0,
    maxTrackTimes := [5], maxTimeRegions := [4], deadRegions := [] }

end SteppingAction

namespace FastTimeTopologyTester

/-! ## `FastTimeTopologyTester.cc`: data model -/

/-- Modelled from the spec: the class `FastTimeDetId` is declared outside the
two files; the specification describes it as an identifier encoding
(subdetector part, eta index, phi index, z-side).  A value records the four
arguments of the constructor call `FastTimeDetId(type, izeta, iphi, zside)`. -/
structure FastTimeDetId where
  type : Int
  izeta : Int
  iphi : Int
  zside : Int
  deriving DecidableEq

/-- Modelled from the spec: the class `DetId` is declared outside the two files;
the specification describes it as a packed integer cell identifier. -/
structure DetId where
  rawId : Nat
  deriving DecidableEq

/-- The four neighbour directions queried by `doTest`. -/
inductive Direction where
  | East
  | West
  | North
  | South
  deriving DecidableEq

/-- Name of a direction as it is spelled in the logged text. -/
def Direction.name : Direction → String
  | .East => "East"
  | .West => "West"
  | .North => "North"
  | .South => "South"

/-- The `const` member functions of `FastTimeTopology` that `doTest` calls, as
functions of the state `σ` of the topology object (the class itself is declared
outside the two files, so its queries are parameters). -/
structure FastTimeTopology (σ : Type) where
  valid : σ → FastTimeDetId → Bool
  east : σ → FastTimeDetId → List DetId
  west : σ → FastTimeDetId → List DetId
  north : σ → FastTimeDetId → List DetId
  south : σ → FastTimeDetId → List DetId

/-- Neighbour query of a topology selected by direction. -/
def FastTimeTopology.neighbours {σ : Type} (T : FastTimeTopology σ) :
    Direction → σ → FastTimeDetId → List DetId
  | .East => T.east
  | .West => T.west
  | .North => T.north
  | .South => T.south

/-- Text conversions used when a line is assembled, both declared outside the two
files: `ofRaw` is the conversion `static_cast<FastTimeDetId>(i())` of a raw
identifier, `print` is the stream output of a `FastTimeDetId`. -/
structure Printer where
  ofRaw : Nat → FastTimeDetId
  print : FastTimeDetId → String

/-- What `doTest` does that is visible from outside, in program order: calls of
the topology queries and lines handed to `edm::LogVerbatim("FastTime")`. -/
inductive Event where
  | valid (id : FastTimeDetId)
  | neighbours (d : Direction) (id : FastTimeDetId)
  | logTower (text : String)
  | logDirection (d : Direction) (text : String)
  deriving DecidableEq

/-- State of the topology object together with the events produced so far by a
piece of code.  `doTest` returns `void`, so there is no value component. -/
structure Outcome (σ : Type) where
  topology : σ
  events : List Event

/-! ## `FastTimeTopologyTester.cc`: `doTest` -/

/-- Call of the `const` query `topology.valid(id)`: the answer and the state of
the topology after the call. -/
def callValid {σ : Type} (T : FastTimeTopology σ) (id : FastTimeDetId) (s : σ) : Bool × σ :=
  (T.valid s id, s)

/-- Call of the `const` query `topology.east(id)`. -/
def callEast {σ : Type} (T : FastTimeTopology σ) (id : FastTimeDetId) (s : σ) : List DetId × σ :=
  (T.east s id, s)

/-- Call of the `const` query `topology.west(id)`. -/
def callWest {σ : Type} (T : FastTimeTopology σ) (id : FastTimeDetId) (s : σ) : List DetId × σ :=
  (T.west s id, s)

/-- Call of the `const` query `topology.north(id)`. -/
def callNorth {σ : Type} (T : FastTimeTopology σ) (id : FastTimeDetId) (s : σ) : List DetId × σ :=
  (T.north s id, s)

/-- Call of the `const` query `topology.south(id)`. -/
def callSouth {σ : Type} (T : FastTimeTopology σ) (id : FastTimeDetId) (s : σ) : List DetId × σ :=
  (T.south s id, s)

/-- One `std::ostringstream` of lines 63-82: the ten blanks, the size of the
vector, the literal naming the direction, then every element after one blank. -/
def directionLine (P : Printer) (label : String) (ids : List DetId) : String :=
  ids.foldl (fun st i => st ++ " " ++ P.print (P.ofRaw i.rawId))
    ("          " ++ toString ids.length ++ label)

/-- Body of the innermost loop for one cell (lines 56-83). -/
def visit {σ : Type} (T : FastTimeTopology σ) (P : Printer) (id : FastTimeDetId) (s : σ) :
    Outcome σ :=
  let r := callValid T id s
  if r.1 then
    let e := callEast T id r.2
    let w := callWest T id e.2
    let n := callNorth T id w.2
    let so := callSouth T id n.2
    { topology := so.2,
      events :=
        [Event.valid id,
         Event.logTower ("Neighbours for Tower " ++ P.print id),
         Event.neighbours .East id, Event.neighbours .West id,
         Event.neighbours .North id, Event.neighbours .South id,
         Event.logDirection .East (directionLine P " sets along East:" e.1),
         Event.logDirection .West (directionLine P " sets along West:" w.1),
         Event.logDirection .North (directionLine P " sets along North:" n.1),
         Event.logDirection .South (directionLine P " sets along South:" so.1)] }
  else
    { topology := r.2, events := [Event.valid id] }

/-- Loop `for (int phi = ...; phi <= 720; ++phi)` of line 55 entered with the
given value of `phi`; the body ends with `phi += 10` (line 84).  The values stay
below 732, far from the range of `int`. -/
def phiLoop {σ : Type} (T : FastTimeTopology σ) (P : Printer) (iz eta : Int) (phi : Int)
    (s : σ) : Outcome σ :=
  if phi ≤ 720 then
    let r1 := visit T P ⟨1, eta, phi, iz⟩ s
    let phi1 := phi + 10
    let r2 := phiLoop T P iz eta (phi1 + 1) r1.topology
    { topology := r2.topology, events := r1.events ++ r2.events }
  else
    { topology := s, events := [] }
termination_by (721 - phi).toNat
decreasing_by omega

/-- Loop `for (int eta = ...; eta <= 265; ++eta)` of line 54 entered with the
given value of `eta`; the body ends with `eta += 5` (line 86). -/
def etaLoop {σ : Type} (T : FastTimeTopology σ) (P : Printer) (iz : Int) (eta : Int)
    (s : σ) : Outcome σ :=
  if eta ≤ 265 then
    let r1 := phiLoop T P iz eta 1 s
    let eta1 := eta + 5
    let r2 := etaLoop T P iz (eta1 + 1) r1.topology
    { topology := r2.topology, events := r1.events ++ r2.events }
  else
    { topology := s, events := [] }
termination_by (266 - eta).toNat
decreasing_by omega

/-- Loop `for (int izz = ...; izz <= 1; izz++)` of line 52 entered with the given
value of `izz`; `iz = 2 * izz - 1` (line 53). -/
def izzLoop {σ : Type} (T : FastTimeTopology σ) (P : Printer) (izz : Int) (s : σ) :
    Outcome σ :=
  if izz ≤ 1 then
    let iz := 2 * izz - 1
    let r1 := etaLoop T P iz 1 s
    let r2 := izzLoop T P (izz + 1) r1.topology
    { topology := r2.topology, events := r1.events ++ r2.events }
  else
    { topology := s, events := [] }
termination_by (2 - izz).toNat
decreasing_by omega

/-- Member function `FastTimeTopologyTester::doTest` (lines 51-89). -/
def doTest {σ : Type} (T : FastTimeTopology σ) (P : Printer) (s : σ) : Outcome σ :=
  izzLoop T P 0 s

/-! ## Observations on a run and the description given by the specification -/

/-- Cells on which `topology.valid` was called, in the order of the calls. -/
def validCalls (evs : List Event) : List FastTimeDetId :=
  evs.filterMap (fun ev => match ev with
    | .valid id => some id
    | _ => none)

/-- Neighbour queries made, in the order of the calls. -/
def neighbourCalls (evs : List Event) : List (Direction × FastTimeDetId) :=
  evs.filterMap (fun ev => match ev with
    | .neighbours d id => some (d, id)
    | _ => none)

/-- Text of every logged line, in the order of logging. -/
def logLines (evs : List Event) : List String :=
  evs.filterMap (fun ev => match ev with
    | .logTower text => some text
    | .logDirection _ text => some text
    | _ => none)

/-- Lines logged for a neighbour direction, with that direction, in the order of
logging. -/
def directionLines (evs : List Event) : List (Direction × String) :=
  evs.filterMap (fun ev => match ev with
    | .logDirection d text => some (d, text)
    | _ => none)

/-- Arithmetic progression `start, start + step, ...` with `n` terms. -/
def stride (start step : Int) : Nat → List Int
  | 0 => []
  | n + 1 => start :: stride (start + step) step n

/-- Sample of cells named by the specification: both z-sides, every sixth `eta`
from 1 up to 265 (45 values), every eleventh `phi` from 1 up to 720 (66
values), in the order z-side, `eta`, `phi`. -/
def sampledCells : List FastTimeDetId :=
  ([-1, 1] : List Int).flatMap (fun iz =>
    (stride 1 6 45).flatMap (fun eta =>
      (stride 1 11 66).map (fun phi => (⟨1, eta, phi, iz⟩ : FastTimeDetId))))

/-- Format of a direction line as the specification words it:
`"<count> sets along <Direction>: <id> <id> ..."`, every id after one blank. -/
def specLine (P : Printer) (d : Direction) (ids : List DetId) : String :=
  toString ids.length ++ " sets along " ++ d.name ++ ":" ++
    String.join (ids.map (fun i => " " ++ P.print (P.ofRaw i.rawId)))

/-- Printer used in the examples: a raw identifier is read as the `phi` index of
a cell, and a cell is printed as its four numbers. -/
def samplePrinter : Printer :=
  { ofRaw := fun raw => ⟨1, 0, raw, 1⟩,
    print := fun id =>
      "(" ++ toString id.type ++ "," ++ toString id.izeta ++ "," ++ toString id.iphi ++ ","
        ++ toString id.zside ++ ")" }

/-- Topology without state in which every cell is valid and has no neighbour. -/
def isolatedCells : FastTimeTopology Unit :=
  { valid := fun _ _ => true,
    east := fun _ _ => [], west := fun _ _ => [],
    north := fun _ _ => [], south := fun _ _ => [] }

/-- Topology without state in which the cells with `phi` up to 360 are valid; a
cell has one neighbour to the East, two to the North and none to the West and
South. -/
def halfRing : FastTimeTopology Unit :=
  { valid := fun _ id => decide (id.iphi ≤ 360),
    east := fun _ id => [⟨(id.iphi + 11).toNat⟩], west := fun _ _ => [],
    north := fun _ _ => [⟨3⟩, ⟨4⟩], south := fun _ _ => [] }

/-- Topology without state in which no cell is valid. -/
def nothingValid : FastTimeTopology Unit :=
  { valid := fun _ _ => false,
    east := fun _ id => [⟨id.iphi.toNat⟩], west := fun _ _ => [],
    north := fun _ _ => [], south := fun _ _ => [] }

end FastTimeTopologyTester

/-! # Theorems -/

namespace SteppingAction

/-! ## Auxiliary facts on the two loops -/

theorem deadRegionLoop_eq_true_iff (reg : G4RegionPtr) (l : List G4RegionPtr) :
    deadRegionLoop reg l = true ↔ reg ∈ l := by
  induction l with
  | nil => simp [deadRegionLoop]
  | cons region rest ih =>
    by_cases h : reg = region
    · simp [deadRegionLoop, h]
    · simp [deadRegionLoop, h, ih]

theorem timeWindowLoop_no_match {τ : Type} (sa : Members τ) (reg : G4RegionPtr) :
    ∀ (n i : Nat), i + n ≤ sa.maxTimeRegions.length →
      (∀ j, i ≤ j → j < i + n → sa.maxTimeRegions[j]? ≠ some reg) →
      timeWindowLoop sa reg n i = some sa.maxTrackTime := by
  intro n
  induction n with
  | zero => intro i _ _; rfl
  | succ n ih =>
    intro i hlen hno
    have hi : i < sa.maxTimeRegions.length := by omega
    have hne : reg ≠ sa.maxTimeRegions[i] := by
      intro h
      exact hno i (le_refl i) (by omega) (by rw [List.getElem?_eq_getElem hi, h])
    rw [timeWindowLoop, List.getElem?_eq_getElem hi]
    simp only [hne, if_false]
    exact ih (i + 1) (by omega) (fun j h1 h2 => hno j (by omega) (by omega))

theorem timeWindowLoop_first_match {τ : Type} (sa : Members τ) (reg : G4RegionPtr) (k : Nat)
    (hk : sa.maxTimeRegions[k]? = some reg) :
    ∀ (n i : Nat), i ≤ k → k < i + n →
      (∀ j, i ≤ j → j < k → sa.maxTimeRegions[j]? ≠ some reg) →
      timeWindowLoop sa reg n i = sa.maxTrackTimes[k]? := by
  intro n
  induction n with
  | zero => intro i h1 h2; omega
  | succ n ih =>
    intro i hik hkn hno
    have hklen : k < sa.maxTimeRegions.length := by
      rcases Nat.lt_or_ge k sa.maxTimeRegions.length with h | h
      · exact h
      · rw [List.getElem?_eq_none h] at hk; cases hk
    have hi : i < sa.maxTimeRegions.length := by omega
    rw [timeWindowLoop, List.getElem?_eq_getElem hi]
    by_cases hki : k = i
    · subst hki
      rw [List.getElem?_eq_getElem hi] at hk
      have : reg = sa.maxTimeRegions[k] := by injection hk with h; exact h.symm
      simp only [this, if_true]
    · have hne : reg ≠ sa.maxTimeRegions[i] := by
        intro h
        exact hno i (le_refl i) (by omega) (by rw [List.getElem?_eq_getElem hi, h])
      simp only [hne, if_false]
      exact ih (i + 1) (by omega) (by omega) (fun j h1 h2 => hno j (by omega) h2)

theorem timeWindowLoop_past_end {τ : Type} (sa : Members τ) (reg : G4RegionPtr)
    (hreg : reg ∉ sa.maxTimeRegions) :
    ∀ (n i : Nat), i ≤ sa.maxTimeRegions.length → sa.maxTimeRegions.length < i + n →
      timeWindowLoop sa reg n i = none := by
  intro n
  induction n with
  | zero => intro i h1 h2; omega
  | succ n ih =>
    intro i h1 h2
    rw [timeWindowLoop]
    rcases Nat.lt_or_ge i sa.maxTimeRegions.length with hi | hi
    · rw [List.getElem?_eq_getElem hi]
      have hne : reg ≠ sa.maxTimeRegions[i] := by
        intro h
        exact hreg (h ▸ List.getElem_mem hi)
      simp only [hne, if_false]
      exact ih (i + 1) (by omega) (by omega)
    · rw [List.getElem?_eq_none hi]

theorem timeWindowLoop_isSome {τ : Type} (sa : Members τ) (reg : G4RegionPtr) :
    ∀ (n i : Nat), i + n ≤ sa.maxTimeRegions.length → i + n ≤ sa.maxTrackTimes.length →
      (timeWindowLoop sa reg n i).isSome = true := by
  intro n
  induction n with
  | zero => intro i _ _; rfl
  | succ n ih =>
    intro i hR hT
    have hi : i < sa.maxTimeRegions.length := by omega
    have hi2 : i < sa.maxTrackTimes.length := by omega
    rw [timeWindowLoop, List.getElem?_eq_getElem hi]
    by_cases h : reg = sa.maxTimeRegions[i]
    · simp only [h, if_true, List.getElem?_eq_getElem hi2, Option.isSome_some]
    · simp only [h, if_false]
      exact ih (i + 1) (by omega) (by omega)

theorem timeWindowLoop_congr {τ : Type} (sa sa1 : Members τ) (reg : G4RegionPtr)
    (h0 : sa1.maxTrackTime = sa.maxTrackTime) :
    ∀ (n i : Nat),
      (∀ j, j < i + n → sa1.maxTimeRegions[j]? = sa.maxTimeRegions[j]?) →
      (∀ j, j < i + n → sa1.maxTrackTimes[j]? = sa.maxTrackTimes[j]?) →
      timeWindowLoop sa1 reg n i = timeWindowLoop sa reg n i := by
  intro n
  induction n with
  | zero => intro i _ _; simp only [timeWindowLoop, h0]
  | succ n ih =>
    intro i hR hT
    rw [timeWindowLoop, timeWindowLoop, hR i (by omega), hT i (by omega),
      ih (i + 1) (fun j hj => hR j (by omega)) (fun j hj => hT j (by omega))]

theorem getElem?_eq_of_take_eq {α : Type} (l1 l2 : List α) (n j : Nat) (hj : j < n)
    (h : l1.take n = l2.take n) : l1[j]? = l2[j]? := by
  have h1 : (l1.take n)[j]? = l1[j]? := by rw [List.getElem?_take, if_pos hj]
  have h2 : (l2.take n)[j]? = l2[j]? := by rw [List.getElem?_take, if_pos hj]
  rw [← h1, ← h2, h]

theorem not_mem_take_getElem? {α : Type} (l : List α) (n : Nat) (a : α)
    (h : a ∉ l.take n) (j : Nat) (hj : j < n) : l[j]? ≠ some a := by
  intro hja
  apply h
  have h1 : (l.take n)[j]? = some a := by rw [List.getElem?_take, if_pos hj]; exact hja
  exact List.getElem?_mem h1

/-! ## Claims on `SteppingAction.h` -/

/-- C1 (as amended): `isOutOfTimeWindow(r, t)` looks for `r` among the first
`numberTimes` entries of `maxTimeRegions` only.  If `i` is the smallest index
below `numberTimes` with `maxTimeRegions[i] == r` and `maxTrackTimes` has an entry
`i`, the function returns `t > maxTrackTimes[i]`; if none of the first
`numberTimes` entries equals `r` and `maxTimeRegions` has that many entries, it
returns `t > maxTrackTime`.  The comparison is strict: a time equal to the
applicable limit is not out of the window. -/
theorem isOutOfTimeWindow_first_match_among_numberTimes {τ : Type} [Preorder τ]
    [DecidableRel (fun (a b : τ) => a < b)] (sa : Members τ) (r : G4RegionPtr) (t : τ) :
    (∀ (i : Nat) (lim : τ), i < sa.numberTimes → sa.maxTimeRegions[i]? = some r →
        (∀ j, j < i → sa.maxTimeRegions[j]? ≠ some r) → sa.maxTrackTimes[i]? = some lim →
        isOutOfTimeWindow sa r t = some (decide (lim < t)) ∧
        isOutOfTimeWindow sa r lim = some false) ∧
    (sa.numberTimes ≤ sa.maxTimeRegions.length →
        (∀ i, i < sa.numberTimes → sa.maxTimeRegions[i]? ≠ some r) →
        isOutOfTimeWindow sa r t = some (decide (sa.maxTrackTime < t)) ∧
        isOutOfTimeWindow sa r sa.maxTrackTime = some false) := by
  constructor
  · intro i lim hi hri hfirst hlim
    have hloop := timeWindowLoop_first_match sa r i hri sa.numberTimes 0 (Nat.zero_le i)
      (by omega) (fun j _ hj => hfirst j hj)
    constructor
    · simp only [isOutOfTimeWindow, hloop, hlim, Option.map_some']
    · simp only [isOutOfTimeWindow, hloop, hlim, Option.map_some', lt_irrefl, decide_False]
  · intro hR hno
    have hloop := timeWindowLoop_no_match sa r sa.numberTimes 0 (by omega)
      (fun j _ hj => hno j (by omega))
    constructor
    · simp only [isOutOfTimeWindow, hloop, Option.map_some']
    · simp only [isOutOfTimeWindow, hloop, Option.map_some', lt_irrefl, decide_False]

/-- C1 (witness): in the aligned table with regions `[4, 9, 4]` and limits
`[5, 20, 7]`, region 4 is judged with the limit 5 of its first entry: time 6 is
out of the window, time 5 is not. -/
theorem isOutOfTimeWindow_first_match_among_numberTimes_witness :
    isOutOfTimeWindow alignedTable 4 6 = some (decide ((5 : Int) < 6)) ∧
      isOutOfTimeWindow alignedTable 4 5 = some false :=
  (isOutOfTimeWindow_first_match_among_numberTimes alignedTable 4 6).1
    0 5 (by decide) (by decide) (by intro j hj; omega) (by decide)

/-- C1 (counterexample): with `numberTimes = 0`, region 1 occurs in
`maxTimeRegions` with override 5, yet at time 7 the function answers with the
global limit 10 (not out of the window), while the claim's rule gives "out of the
window". -/
theorem isOutOfTimeWindow_ignores_entries_beyond_numberTimes :
    unusedOverride.maxTimeRegions[0]? = some 1 ∧
      unusedOverride.maxTrackTimes[0]? = some 5 ∧
      isOutOfTimeWindowSpec unusedOverride 1 7 = some (decide ((5 : Int) < 7)) ∧
      isOutOfTimeWindow unusedOverride 1 7 = some false ∧
      isOutOfTimeWindow unusedOverride 1 7 ≠ isOutOfTimeWindowSpec unusedOverride 1 7 := by
  decide

/-- C2: `isInsideDeadRegion(r)` is true exactly when `r` equals some entry of
`deadRegions`, and it is false for every `r` when `deadRegions` is empty. -/
theorem isInsideDeadRegion_iff_mem {τ : Type} (sa : Members τ) (r : G4RegionPtr) :
    (isInsideDeadRegion sa r = true ↔ r ∈ sa.deadRegions) ∧
    (sa.deadRegions = [] → isInsideDeadRegion sa r = false) := by
  constructor
  · exact deadRegionLoop_eq_true_iff r sa.deadRegions
  · intro h
    simp only [isInsideDeadRegion, h, deadRegionLoop]

/-- C2 (witness): the table `unusedOverride` has no dead region, so region 3 is
not inside a dead region. -/
theorem isInsideDeadRegion_iff_mem_witness :
    unusedOverride.deadRegions = [] ∧ isInsideDeadRegion unusedOverride 3 = false :=
  ⟨rfl, (isInsideDeadRegion_iff_mem unusedOverride 3).2 rfl⟩

/-- C3 (as amended): `TrackStatus` has exactly nine values; in the declared order
they carry the codes 0, 1, ..., 8 (`sAlive = 0` first, `sNumberOfSteps = 8`
last), and the mapping from enumerator to code is injective. -/
theorem trackStatus_nine_codes :
    Fintype.card TrackStatus = 9 ∧
    (∀ s : TrackStatus, s ∈ TrackStatus.declared) ∧
    TrackStatus.declared.map TrackStatus.code = [0, 1, 2, 3, 4, 5, 6, 7, 8] ∧
    Function.Injective TrackStatus.code := by
  refine ⟨by decide, ?_, by decide, ?_⟩
  · intro s; cases s <;> decide
  · intro a b h
    cases a <;> cases b <;> first | rfl | (exact absurd h (by decide))

/-- C3 (counterexample): the enumeration does not consist of eight values with
the codes 0..7: it has a ninth value, `sNumberOfSteps`, and its code is 8. -/
theorem trackStatus_not_eight_codes :
    Fintype.card TrackStatus ≠ 8 ∧
      TrackStatus.code TrackStatus.sNumberOfSteps = 8 ∧
      ¬ (∀ s : TrackStatus, s.code ≤ 7) := by
  refine ⟨by decide, rfl, ?_⟩
  intro h
  exact absurd (h TrackStatus.sNumberOfSteps) (by decide)

/-- C9: when `numberTimes` exceeds the length of neither vector, no call of
`isOutOfTimeWindow` reads past the end of a vector; when `numberTimes` exceeds
the length of `maxTimeRegions`, every region matching no entry makes the function
read past the end, and such a region exists. -/
theorem isOutOfTimeWindow_index_safety {τ : Type} [LT τ]
    [DecidableRel (fun (a b : τ) => a < b)] (sa : Members τ) :
    (sa.numberTimes ≤ sa.maxTimeRegions.length → sa.numberTimes ≤ sa.maxTrackTimes.length →
        ∀ (r : G4RegionPtr) (t : τ), (isOutOfTimeWindow sa r t).isSome = true) ∧
    (sa.maxTimeRegions.length < sa.numberTimes →
        (∃ r : G4RegionPtr, r ∉ sa.maxTimeRegions) ∧
        ∀ (r : G4RegionPtr) (t : τ), r ∉ sa.maxTimeRegions → isOutOfTimeWindow sa r t = none) := by
  constructor
  · intro hR hT r t
    have h := timeWindowLoop_isSome sa r sa.numberTimes 0 (by omega) (by omega)
    simp only [isOutOfTimeWindow, Option.isSome_map', h]
  · intro hlt
    constructor
    · refine ⟨sa.maxTimeRegions.sum + 1, ?_⟩
      intro hmem
      have := List.single_le_sum (fun x _ => Nat.zero_le x) _ hmem
      omega
    · intro r t hr
      have h := timeWindowLoop_past_end sa r hr sa.numberTimes 0 (Nat.zero_le _) (by omega)
      simp only [isOutOfTimeWindow, h, Option.map_none']

/-- C10: `isOutOfTimeWindow` reads only the entries below `numberTimes`: its
answer is the same for any table that agrees on the global limit, on
`numberTimes` and on the first `numberTimes` entries of both vectors; with
`numberTimes = 0` it answers `t > maxTrackTime`; a region absent from the first
`numberTimes` entries gets the global limit.  `isInsideDeadRegion` does not
depend on `ndeadRegions` and looks at every entry of `deadRegions`. -/
theorem isOutOfTimeWindow_reads_first_numberTimes {τ : Type} [LT τ]
    [DecidableRel (fun (a b : τ) => a < b)] (sa : Members τ) (r : G4RegionPtr) (t : τ) :
    (∀ sa1 : Members τ, sa1.maxTrackTime = sa.maxTrackTime →
        sa1.numberTimes = sa.numberTimes →
        sa1.maxTimeRegions.take sa.numberTimes = sa.maxTimeRegions.take sa.numberTimes →
        sa1.maxTrackTimes.take sa.numberTimes = sa.maxTrackTimes.take sa.numberTimes →
        isOutOfTimeWindow sa1 r t = isOutOfTimeWindow sa r t) ∧
    (sa.numberTimes = 0 → isOutOfTimeWindow sa r t = some (decide (sa.maxTrackTime < t))) ∧
    (sa.numberTimes ≤ sa.maxTimeRegions.length → r ∉ sa.maxTimeRegions.take sa.numberTimes →
        isOutOfTimeWindow sa r t = some (decide (sa.maxTrackTime < t))) ∧
    (∀ n : Nat, isInsideDeadRegion { sa with ndeadRegions := n } r = isInsideDeadRegion sa r) ∧
    (isInsideDeadRegion sa r = true ↔ r ∈ sa.deadRegions) := by
  refine ⟨?_, ?_, ?_, ?_, ?_⟩
  · intro sa1 h0 hn hR hT
    have hloop := timeWindowLoop_congr sa sa1 r h0 sa.numberTimes 0
      (fun j hj => getElem?_eq_of_take_eq _ _ sa.numberTimes j (by omega) hR)
      (fun j hj => getElem?_eq_of_take_eq _ _ sa.numberTimes j (by omega) hT)
    simp only [isOutOfTimeWindow, hn, hloop]
  · intro h0
    simp only [isOutOfTimeWindow, h0, timeWindowLoop, Option.map_some']
  · intro hR hr
    have hloop := timeWindowLoop_no_match sa r sa.numberTimes 0 (by omega)
      (fun j _ hj => not_mem_take_getElem? _ sa.numberTimes r hr j (by omega))
    simp only [isOutOfTimeWindow, hloop, Option.map_some']
  · intro n
    rfl
  · exact deadRegionLoop_eq_true_iff r sa.deadRegions

/-- C10 (witness): with `numberTimes = 1`, region 9 is listed at index 1 with
override 20, yet at time 15 it is judged with the global limit 10. -/
theorem isOutOfTimeWindow_reads_first_numberTimes_witness :
    shortCount.maxTimeRegions[1]? = some 9 ∧ shortCount.maxTrackTimes[1]? = some 20 ∧
      isOutOfTimeWindow shortCount 9 15 = some (decide ((10 : Int) < 15)) :=
  ⟨rfl, rfl,
    (isOutOfTimeWindow_reads_first_numberTimes shortCount 9 15).2.2.1 (by decide) (by decide)⟩

/-- C9 (witness): the aligned table is read within bounds, and the table
`overCount`, whose `numberTimes = 2` exceeds its single region entry, is read
past the end for a region it does not list. -/
theorem isOutOfTimeWindow_index_safety_witness :
    (isOutOfTimeWindow alignedTable 4 6).isSome = true ∧
      isOutOfTimeWindow overCount 2 6 = none :=
  ⟨(isOutOfTimeWindow_index_safety alignedTable).1 (by decide) (by decide) 4 6,
   ((isOutOfTimeWindow_index_safety overCount).2 (by decide)).2 2 6 (by decide)⟩

end SteppingAction

namespace FastTimeTopologyTester

/-! ## Auxiliary facts on `doTest` -/

theorem visit_topology {σ : Type} (T : FastTimeTopology σ) (P : Printer) (id : FastTimeDetId)
    (s : σ) : (visit T P id s).topology = s := by
  unfold visit callValid callEast callWest callNorth callSouth
  cases h : T.valid s id <;> simp [h]

theorem visit_events_invalid {σ : Type} (T : FastTimeTopology σ) (P : Printer)
    (id : FastTimeDetId) (s : σ) (h : T.valid s id = false) :
    (visit T P id s).events = [Event.valid id] := by
  unfold visit callValid
  simp [h]

theorem visit_events_valid {σ : Type} (T : FastTimeTopology σ) (P : Printer)
    (id : FastTimeDetId) (s : σ) (h : T.valid s id = true) :
    (visit T P id s).events =
      [Event.valid id,
       Event.logTower ("Neighbours for Tower " ++ P.print id),
       Event.neighbours .East id, Event.neighbours .West id,
       Event.neighbours .North id, Event.neighbours .South id,
       Event.logDirection .East (directionLine P " sets along East:" (T.east s id)),
       Event.logDirection .West (directionLine P " sets along West:" (T.west s id)),
       Event.logDirection .North (directionLine P " sets along North:" (T.north s id)),
       Event.logDirection .South (directionLine P " sets along South:" (T.south s id))] := by
  unfold visit callValid callEast callWest callNorth callSouth
  simp [h]

theorem stride_succ (start step : Int) (n : Nat) :
    stride start step (n + 1) = start :: stride (start + step) step n := rfl

theorem phiLoop_eq {σ : Type} (T : FastTimeTopology σ) (P : Printer) (iz eta : Int) (s : σ) :
    ∀ (n : Nat) (phi : Int), 720 < phi + 11 * n → (∀ k : Nat, k < n → phi + 11 * k ≤ 720) →
      phiLoop T P iz eta phi s =
        { topology := s,
          events := (stride phi 11 n).flatMap
            (fun p => (visit T P ⟨1, eta, p, iz⟩ s).events) } := by
  intro n
  induction n with
  | zero =>
    intro phi h _
    rw [phiLoop]
    have : ¬ phi ≤ 720 := by simpa using h
    simp only [this, if_false, stride, List.flatMap_nil]
  | succ n ih =>
    intro phi h hk
    have h0 : phi ≤ 720 := by simpa using hk 0 (Nat.succ_pos n)
    rw [phiLoop]
    simp only [h0, if_true, visit_topology]
    rw [stride_succ phi 11 n, List.flatMap_cons]
    rw [ih (phi + 10 + 1) (by push_cast at h; omega)
      (fun k hk1 => by have := hk (k + 1) (by omega); push_cast at this; omega)]
    have : phi + 10 + 1 = phi + 11 := by omega
    rw [this]

theorem etaLoop_eq {σ : Type} (T : FastTimeTopology σ) (P : Printer) (iz : Int) (s : σ) :
    ∀ (n : Nat) (eta : Int), 265 < eta + 6 * n → (∀ k : Nat, k < n → eta + 6 * k ≤ 265) →
      etaLoop T P iz eta s =
        { topology := s,
          events := (stride eta 6 n).flatMap (fun e =>
            (stride 1 11 66).flatMap (fun p => (visit T P ⟨1, e, p, iz⟩ s).events)) } := by
  intro n
  induction n with
  | zero =>
    intro eta h _
    rw [etaLoop]
    have : ¬ eta ≤ 265 := by simpa using h
    simp only [this, if_false]
    rfl
  | succ n ih =>
    intro eta h hk
    have h0 : eta ≤ 265 := by simpa using hk 0 (Nat.succ_pos n)
    rw [etaLoop]
    simp only [h0, if_true]
    rw [phiLoop_eq T P iz eta s 66 1 (by norm_num) (fun k hk1 => by omega)]
    rw [stride_succ eta 6 n, List.flatMap_cons]
    rw [ih (eta + 5 + 1) (by push_cast at h; omega)
      (fun k hk1 => by have := hk (k + 1) (by omega); push_cast at this; omega)]
    have : eta + 5 + 1 = eta + 6 := by omega
    rw [this]

theorem doTest_eq {σ : Type} (T : FastTimeTopology σ) (P : Printer) (s : σ) :
    doTest T P s =
      { topology := s,
        events := sampledCells.flatMap (fun id => (visit T P id s).events) } := by
  have hE : ∀ iz : Int, etaLoop T P iz 1 s =
      { topology := s,
        events := (stride 1 6 45).flatMap (fun e =>
          (stride 1 11 66).flatMap (fun p => (visit T P ⟨1, e, p, iz⟩ s).events)) } :=
    fun iz => etaLoop_eq T P iz s 45 1 (by norm_num) (fun k hk1 => by omega)
  unfold doTest
  rw [izzLoop]
  simp only [show (0 : Int) ≤ 1 by norm_num, if_true, hE]
  rw [izzLoop]
  simp only [show (0 : Int) + 1 ≤ 1 by norm_num, if_true, hE]
  rw [izzLoop]
  simp only [show ¬ ((0 : Int) + 1 + 1 ≤ 1) by norm_num, if_false]
  simp only [sampledCells, List.flatMap_cons, List.flatMap_nil, List.append_nil,
    List.flatMap_append, List.flatMap_assoc, List.flatMap_map]
  norm_num

theorem mem_stride (start step : Int) :
    ∀ (n : Nat) (x : Int), x ∈ stride start step n ↔ ∃ k : Nat, k < n ∧ x = start + step * k := by
  intro n
  induction n generalizing start with
  | zero => intro x; simp [stride]
  | succ n ih =>
    intro x
    rw [stride_succ, List.mem_cons, ih]
    constructor
    · rintro (h | ⟨k, hk, h⟩)
      · exact ⟨0, Nat.succ_pos n, by simp [h]⟩
      · exact ⟨k + 1, by omega, by rw [h]; push_cast; ring⟩
    · rintro ⟨k, hk, h⟩
      cases k with
      | zero => left; simpa using h
      | succ k => right; exact ⟨k, by omega, by rw [h]; push_cast; ring⟩

theorem length_stride (start step : Int) :
    ∀ n : Nat, (stride start step n).length = n := by
  intro n
  induction n generalizing start with
  | zero => rfl
  | succ n ih => rw [stride_succ, List.length_cons, ih]

theorem length_flatMap_const {α β : Type} (l : List α) (f : α → List β) (c : Nat)
    (h : ∀ a ∈ l, (f a).length = c) : (l.flatMap f).length = l.length * c := by
  induction l with
  | nil => simp
  | cons a l ih =>
    rw [List.flatMap_cons, List.length_append, h a (List.mem_cons_self a l),
      ih (fun b hb => h b (List.mem_cons_of_mem a hb)), List.length_cons]
    ring

theorem length_sampledCells : sampledCells.length = 5940 := by
  unfold sampledCells
  rw [length_flatMap_const _ _ (45 * 66)]
  · rfl
  · intro iz _
    rw [length_flatMap_const _ _ 66, length_stride]
    intro eta _
    rw [List.length_map, length_stride]

theorem mem_sampledCells (id : FastTimeDetId) :
    id ∈ sampledCells ↔
      id.type = 1 ∧ (id.zside = -1 ∨ id.zside = 1) ∧
      (∃ k : Nat, id.izeta = 1 + 6 * k ∧ id.izeta ≤ 265) ∧
      (∃ j : Nat, id.iphi = 1 + 11 * j ∧ id.iphi ≤ 720) := by
  unfold sampledCells
  simp only [List.mem_flatMap, List.mem_map, mem_stride, List.mem_cons, List.mem_singleton,
    List.not_mem_nil, or_false]
  constructor
  · rintro ⟨iz, hiz, eta, ⟨k, hk, rfl⟩, phi, ⟨j, hj, rfl⟩, rfl⟩
    exact ⟨rfl, hiz, ⟨k, rfl, by show (1 : Int) + 6 * k ≤ 265; omega⟩,
      ⟨j, rfl, by show (1 : Int) + 11 * j ≤ 720; omega⟩⟩
  · rintro ⟨ht, hz, ⟨k, hk, hk2⟩, ⟨j, hj, hj2⟩⟩
    refine ⟨id.zside, hz, id.izeta, ⟨k, by omega, hk⟩, id.iphi, ⟨j, by omega, hj⟩, ?_⟩
    cases id
    simp only at ht
    subst ht
    rfl

theorem validCalls_visit {σ : Type} (T : FastTimeTopology σ) (P : Printer) (id : FastTimeDetId)
    (s : σ) : validCalls (visit T P id s).events = [id] := by
  cases h : T.valid s id
  · rw [visit_events_invalid T P id s h]; rfl
  · rw [visit_events_valid T P id s h]; rfl

theorem flatMap_singleton_fun {α : Type} (l : List α) : l.flatMap (fun a => [a]) = l := by
  induction l with
  | nil => rfl
  | cons a l ih => rw [List.flatMap_cons, ih]; rfl

theorem validCalls_doTest {σ : Type} (T : FastTimeTopology σ) (P : Printer) (s : σ) :
    validCalls (doTest T P s).events = sampledCells := by
  rw [doTest_eq]
  show validCalls (sampledCells.flatMap (fun id => (visit T P id s).events)) = sampledCells
  unfold validCalls
  rw [List.filterMap_flatMap]
  have h : ∀ id : FastTimeDetId, validCalls (visit T P id s).events = [id] :=
    fun id => validCalls_visit T P id s
  unfold validCalls at h
  simp only [h]
  exact flatMap_singleton_fun sampledCells

/-! ## Claims on `FastTimeTopologyTester::doTest` -/

/-- C4: whatever the topology answers, the cells on which `doTest` calls
`topology.valid` are, in order, the cells of the sample, and a cell is among them
exactly when its type is 1, its z-side is -1 or +1, its `eta` is some `1 + 6k` not
above 265 and its `phi` is some `1 + 11j` not above 720. -/
theorem doTest_checks_exactly_the_sample {σ : Type} (T : FastTimeTopology σ) (P : Printer)
    (s : σ) :
    validCalls (doTest T P s).events = sampledCells ∧
    ∀ id : FastTimeDetId, id ∈ validCalls (doTest T P s).events ↔
      id.type = 1 ∧ (id.zside = -1 ∨ id.zside = 1) ∧
      (∃ k : Nat, id.izeta = 1 + 6 * k ∧ id.izeta ≤ 265) ∧
      (∃ j : Nat, id.iphi = 1 + 11 * j ∧ id.iphi ≤ 720) := by
  refine ⟨validCalls_doTest T P s, ?_⟩
  intro id
  rw [validCalls_doTest]
  exact mem_sampledCells id

/-- C5: `doTest` is a total function of the topology (its three loops are defined
by recursion on a decreasing measure), and the number of calls of
`topology.valid` it makes is `2 * ceil(265/6) * ceil(720/11) = 2 * 45 * 66 = 5940`
for every topology. -/
theorem doTest_number_of_validity_checks {σ : Type} (T : FastTimeTopology σ) (P : Printer)
    (s : σ) :
    (validCalls (doTest T P s).events).length = 2 * ⌈(265 : ℚ) / 6⌉₊ * ⌈(720 : ℚ) / 11⌉₊ ∧
    2 * ⌈(265 : ℚ) / 6⌉₊ * ⌈(720 : ℚ) / 11⌉₊ = 2 * 45 * 66 ∧ 2 * 45 * 66 = 5940 := by
  have h1 : ⌈(265 : ℚ) / 6⌉₊ = 45 := by
    rw [Nat.ceil_eq_iff (by norm_num)]; norm_num
  have h2 : ⌈(720 : ℚ) / 11⌉₊ = 66 := by
    rw [Nat.ceil_eq_iff (by norm_num)]; norm_num
  rw [validCalls_doTest, length_sampledCells, h1, h2]
  exact ⟨rfl, rfl, rfl⟩

/-- C8: `doTest` leaves the topology as it found it: for every topology, every
printer and every state of the topology object, the state after the run is the
state before it; what the run produces besides is the sequence of events, of
which the logged lines are the output. -/
theorem doTest_preserves_topology {σ : Type} (T : FastTimeTopology σ) (P : Printer) (s : σ) :
    (doTest T P s).topology = s := by
  rw [doTest_eq]

end FastTimeTopologyTester

namespace FastTimeTopologyTester

/-! ## Logged lines -/

theorem foldl_append_eq (l : List String) :
    ∀ acc : String, l.foldl (fun r s => r ++ s) acc = acc ++ String.join l := by
  induction l with
  | nil => intro acc; simp [String.join]
  | cons a l ih =>
    intro acc
    have h1 : String.join (a :: l) = a ++ String.join l := by
      show (a :: l).foldl (fun r s => r ++ s) "" = a ++ String.join l
      rw [List.foldl_cons, ih]
      simp
    rw [List.foldl_cons, ih, h1, String.append_assoc]

theorem directionLine_eq (P : Printer) (label : String) (ids : List DetId) :
    directionLine P label ids =
      "          " ++ toString ids.length ++ label ++
        String.join (ids.map (fun i => " " ++ P.print (P.ofRaw i.rawId))) := by
  unfold directionLine
  generalize "          " ++ toString ids.length ++ label = init
  induction ids generalizing init with
  | nil => simp [String.join]
  | cons i ids ih =>
    have h1 : String.join (List.map (fun i => " " ++ P.print (P.ofRaw i.rawId)) (i :: ids)) =
        (" " ++ P.print (P.ofRaw i.rawId)) ++
          String.join (List.map (fun i => " " ++ P.print (P.ofRaw i.rawId)) ids) := by
      show ((" " ++ P.print (P.ofRaw i.rawId)) :: _).foldl (fun r s => r ++ s) "" = _
      rw [List.foldl_cons, foldl_append_eq]
      simp
    rw [List.foldl_cons, ih, h1]
    simp only [String.append_assoc]

theorem directionLine_eq_specLine (P : Printer) (d : Direction) (ids : List DetId) :
    directionLine P (" sets along " ++ d.name ++ ":") ids = "          " ++ specLine P d ids := by
  rw [directionLine_eq]
  unfold specLine
  simp only [String.append_assoc]

theorem directionLines_visit_valid {σ : Type} (T : FastTimeTopology σ) (P : Printer)
    (id : FastTimeDetId) (s : σ) (h : T.valid s id = true) :
    directionLines (visit T P id s).events =
      [(Direction.East, "          " ++ specLine P .East (T.east s id)),
       (Direction.West, "          " ++ specLine P .West (T.west s id)),
       (Direction.North, "          " ++ specLine P .North (T.north s id)),
       (Direction.South, "          " ++ specLine P .South (T.south s id))] := by
  rw [visit_events_valid T P id s h, ← directionLine_eq_specLine, ← directionLine_eq_specLine,
    ← directionLine_eq_specLine, ← directionLine_eq_specLine]
  rfl

theorem length_flatMap_filter {α β : Type} (l : List α) (p : α → Bool) (f : α → List β)
    (c : Nat) (h1 : ∀ a, p a = true → (f a).length = c) (h0 : ∀ a, p a = false → f a = []) :
    (l.flatMap f).length = c * (l.filter p).length := by
  induction l with
  | nil => simp
  | cons a l ih =>
    rw [List.flatMap_cons, List.length_append, ih]
    cases h : p a
    · rw [h0 a h, List.filter_cons_of_neg (by simp [h])]
      simp
    · rw [h1 a h, List.filter_cons_of_pos h, List.length_cons]
      ring

theorem logLines_visit_valid {σ : Type} (T : FastTimeTopology σ) (P : Printer)
    (id : FastTimeDetId) (s : σ) (h : T.valid s id = true) :
    logLines (visit T P id s).events =
      ["Neighbours for Tower " ++ P.print id,
       "          " ++ specLine P .East (T.east s id),
       "          " ++ specLine P .West (T.west s id),
       "          " ++ specLine P .North (T.north s id),
       "          " ++ specLine P .South (T.south s id)] := by
  rw [visit_events_valid T P id s h, ← directionLine_eq_specLine, ← directionLine_eq_specLine,
    ← directionLine_eq_specLine, ← directionLine_eq_specLine]
  rfl

theorem neighbourCalls_visit_valid {σ : Type} (T : FastTimeTopology σ) (P : Printer)
    (id : FastTimeDetId) (s : σ) (h : T.valid s id = true) :
    neighbourCalls (visit T P id s).events =
      [(Direction.East, id), (Direction.West, id), (Direction.North, id),
       (Direction.South, id)] := by
  rw [visit_events_valid T P id s h]
  rfl

/-- C6: the run of `doTest` is the concatenation, over the cells of the sample in
order, of what the loop body does for each cell.  For a cell that is not valid
the body only makes the validity check: it logs nothing and queries no
neighbour.  For a valid cell it queries the four neighbour lists once each and
logs, after the tower line, exactly one line per direction, in the order East,
West, North, South: the text of each line names its direction and lists the
neighbours of the matching query.  The whole log is made of these five lines for
every valid cell of the sample, in the order of the sample; hence the number of
direction lines is 4 times the number of valid cells of the sample, and nothing
at all is logged when no cell of the sample is valid. -/
theorem doTest_logs_four_lines_per_valid_cell {σ : Type} (T : FastTimeTopology σ)
    (P : Printer) (s : σ) :
    (doTest T P s).events = sampledCells.flatMap (fun id => (visit T P id s).events) ∧
    (∀ id : FastTimeDetId, T.valid s id = false →
        (visit T P id s).events = [Event.valid id] ∧
        logLines (visit T P id s).events = [] ∧
        neighbourCalls (visit T P id s).events = []) ∧
    (∀ id : FastTimeDetId, T.valid s id = true →
        logLines (visit T P id s).events =
          ["Neighbours for Tower " ++ P.print id,
           "          " ++ specLine P .East (T.east s id),
           "          " ++ specLine P .West (T.west s id),
           "          " ++ specLine P .North (T.north s id),
           "          " ++ specLine P .South (T.south s id)] ∧
        directionLines (visit T P id s).events =
          [(Direction.East, "          " ++ specLine P .East (T.east s id)),
           (Direction.West, "          " ++ specLine P .West (T.west s id)),
           (Direction.North, "          " ++ specLine P .North (T.north s id)),
           (Direction.South, "          " ++ specLine P .South (T.south s id))] ∧
        neighbourCalls (visit T P id s).events =
          [(Direction.East, id), (Direction.West, id), (Direction.North, id),
           (Direction.South, id)]) ∧
    logLines (doTest T P s).events =
        sampledCells.flatMap (fun id =>
          if T.valid s id = true then
            ["Neighbours for Tower " ++ P.print id,
             "          " ++ specLine P .East (T.east s id),
             "          " ++ specLine P .West (T.west s id),
             "          " ++ specLine P .North (T.north s id),
             "          " ++ specLine P .South (T.south s id)]
          else []) ∧
    (directionLines (doTest T P s).events).length =
        4 * (sampledCells.filter (fun id => T.valid s id)).length ∧
    (logLines (doTest T P s).events).length =
        5 * (sampledCells.filter (fun id => T.valid s id)).length ∧
    ((∀ id ∈ sampledCells, T.valid s id = false) → logLines (doTest T P s).events = []) := by
  have hrun : (doTest T P s).events =
      sampledCells.flatMap (fun id => (visit T P id s).events) := by rw [doTest_eq]
  have hinv : ∀ id : FastTimeDetId, T.valid s id = false →
      logLines (visit T P id s).events = [] := by
    intro id h
    rw [visit_events_invalid T P id s h]
    rfl
  refine ⟨hrun, ?_, ?_, ?_, ?_, ?_, ?_⟩
  · intro id h
    rw [visit_events_invalid T P id s h]
    exact ⟨rfl, rfl, rfl⟩
  · intro id h
    exact ⟨logLines_visit_valid T P id s h, directionLines_visit_valid T P id s h,
      neighbourCalls_visit_valid T P id s h⟩
  · rw [hrun]
    have hflat : logLines (sampledCells.flatMap (fun id => (visit T P id s).events)) =
        sampledCells.flatMap (fun id => logLines (visit T P id s).events) := by
      unfold logLines
      rw [List.filterMap_flatMap]
    rw [hflat]
    apply List.flatMap_congr
    intro id _
    cases h : T.valid s id
    · rw [hinv id h]
      simp
    · rw [logLines_visit_valid T P id s h]
      simp
  · rw [hrun]
    unfold directionLines
    rw [List.filterMap_flatMap]
    apply length_flatMap_filter
    · intro id h
      have := directionLines_visit_valid T P id s h
      unfold directionLines at this
      rw [this]
      rfl
    · intro id h
      rw [visit_events_invalid T P id s h]
      rfl
  · rw [hrun]
    have hflat : logLines (sampledCells.flatMap (fun id => (visit T P id s).events)) =
        sampledCells.flatMap (fun id => logLines (visit T P id s).events) := by
      unfold logLines
      rw [List.filterMap_flatMap]
    rw [hflat]
    apply length_flatMap_filter
    · intro id h
      rw [logLines_visit_valid T P id s h]
      rfl
    · intro id h
      exact hinv id h
  · intro hno
    rw [hrun]
    unfold logLines
    rw [List.filterMap_flatMap, List.flatMap_eq_nil_iff]
    intro id hid
    rw [visit_events_invalid T P id s (hno id hid)]
    rfl

/-- C6 (witness): in the topology `halfRing` the sampled cell with `phi = 12` is
valid and the body logs the tower line and then the East, West, North and South
lines with the neighbours of each query; the sampled cell with `phi = 364` is not
valid and the body only makes the validity check; on the topology in which no
cell is valid, `doTest` logs nothing. -/
theorem doTest_logs_four_lines_per_valid_cell_witness :
    logLines (visit halfRing samplePrinter ⟨1, 1, 12, -1⟩ ()).events =
      ["Neighbours for Tower (1,1,12,-1)",
       "          1 sets along East: (1,0,23,1)",
       "          0 sets along West:",
       "          2 sets along North: (1,0,3,1) (1,0,4,1)",
       "          0 sets along South:"] ∧
    (visit halfRing samplePrinter ⟨1, 1, 364, -1⟩ ()).events = [Event.valid ⟨1, 1, 364, -1⟩] ∧
    logLines (doTest nothingValid samplePrinter ()).events = [] :=
  ⟨((doTest_logs_four_lines_per_valid_cell halfRing samplePrinter ()).2.2.1
      ⟨1, 1, 12, -1⟩ (by decide)).1,
   ((doTest_logs_four_lines_per_valid_cell halfRing samplePrinter ()).2.1
      ⟨1, 1, 364, -1⟩ (by decide)).1,
   (doTest_logs_four_lines_per_valid_cell nothingValid samplePrinter ()).2.2.2.2.2.2
    (fun _ _ => rfl)⟩

/-- C7 (as amended): for every valid cell of the sample and each direction, the
line `doTest` logs is ten blanks followed by
`"<count> sets along <Direction>:"` and the ids: the direction's name, the ids
returned by the matching query in the order returned, each after one blank, and
as count the length of that list. -/
theorem doTest_direction_line_is_indented_format {σ : Type} (T : FastTimeTopology σ)
    (P : Printer) (s : σ) (id : FastTimeDetId) (hid : id ∈ sampledCells)
    (hv : T.valid s id = true) :
    directionLines (visit T P id s).events =
      [Direction.East, Direction.West, Direction.North, Direction.South].map
        (fun d => (d, "          " ++ specLine P d (T.neighbours d s id))) ∧
    (∀ d : Direction,
      Event.logDirection d ("          " ++ specLine P d (T.neighbours d s id))
        ∈ (doTest T P s).events) ∧
    (∀ d : Direction, T.neighbours d s id = [] →
      specLine P d (T.neighbours d s id) = "0 sets along " ++ d.name ++ ":") := by
  refine ⟨directionLines_visit_valid T P id s hv, ?_, ?_⟩
  · intro d
    rw [doTest_eq]
    show _ ∈ sampledCells.flatMap (fun id => (visit T P id s).events)
    rw [List.mem_flatMap]
    refine ⟨id, hid, ?_⟩
    rw [visit_events_valid T P id s hv, ← directionLine_eq_specLine]
    cases d <;> simp [Direction.name, FastTimeTopology.neighbours]
  · intro d h
    rw [h]
    show toString (0 : Nat) ++ " sets along " ++ d.name ++ ":" ++ String.join [] = _
    have h0 : toString (0 : Nat) = "0" := by decide
    simp [h0, String.join]

/-- C7 (witness): in the topology of isolated cells the first cell of the sample
is valid, and the line logged for East is ten blanks followed by
`0 sets along East:`. -/
theorem doTest_direction_line_is_indented_format_witness :
    Event.logDirection .East "          0 sets along East:"
      ∈ (doTest isolatedCells samplePrinter ()).events :=
  (doTest_direction_line_is_indented_format isolatedCells samplePrinter () ⟨1, 1, 1, -1⟩
    ((mem_sampledCells ⟨1, 1, 1, -1⟩).mpr
      ⟨rfl, Or.inl rfl, ⟨0, rfl, by decide⟩, ⟨0, rfl, by decide⟩⟩) rfl).2.1 Direction.East

/-- C7 (counterexample): in the topology of isolated cells the cell
`FastTimeDetId(1, 1, 1, -1)` is sampled and valid and has no neighbour to the
East, so the format of the claim gives `0 sets along East:`; no East line of the
run has that text, the lines start with ten blanks. -/
theorem doTest_direction_line_not_bare_format :
    (⟨1, 1, 1, -1⟩ : FastTimeDetId) ∈ sampledCells ∧
    isolatedCells.valid () ⟨1, 1, 1, -1⟩ = true ∧
    specLine samplePrinter .East (isolatedCells.east () ⟨1, 1, 1, -1⟩) = "0 sets along East:" ∧
    (visit isolatedCells samplePrinter ⟨1, 1, 1, -1⟩ ()).events[6]? =
      some (Event.logDirection .East "          0 sets along East:") ∧
    Event.logDirection .East "0 sets along East:"
      ∉ (doTest isolatedCells samplePrinter ()).events := by
  refine ⟨(mem_sampledCells _).mpr ⟨rfl, Or.inl rfl, ⟨0, rfl, by decide⟩, ⟨0, rfl, by decide⟩⟩,
    rfl, by decide, by decide, ?_⟩
  intro h
  rw [doTest_eq] at h
  obtain ⟨id, _, hmem⟩ := List.mem_flatMap.mp h
  rw [visit_events_valid isolatedCells samplePrinter id () rfl] at hmem
  have hE : directionLine samplePrinter " sets along East:" []
      = "          0 sets along East:" := by decide
  have hE1 : directionLine samplePrinter " sets along East:" (isolatedCells.east () id)
      = "          0 sets along East:" := hE
  rw [hE1] at hmem
  simp at hmem

end FastTimeTopologyTester
